import Mathlib

/-
Verification of the rest-to-mcp-adapter repository.

This file gives a shallow embedding, in Lean 4, of the parts of the
adapter that the verified properties talk about:

* the canonical endpoint data model (`src/adapter/parsing/canonical_models.py`),
* the MCP tool registry (`src/adapter/mcp/tool_registry.py`),
* the JSON-Schema converter (`src/adapter/mcp/schema_converter.py`),
* the ingestion pipeline (`src/adapter/pipeline/ingestion_pipeline.py`),
* the runtime execution layer (request building, retryable execution,
  response normalization, tool dispatch).  The `adapter.runtime` and
  `adapter.server` modules are referenced by `src/adapter/__init__.py`
  but their source files are not part of the tree, so those components
  are modelled from the specification document; every such definition
  is marked `Modelled from the spec:` in its doc comment.

Python dictionaries are modelled as insertion-ordered association
lists (`Dict`), Python exceptions as `Except` / explicit error values,
and library-level parsing (JSON/YAML) as function parameters.
-/

namespace Adapter

/-- JSON-like values: argument maps, request bodies and normalized
response data are such values.  Numbers are modelled as integers,
which is enough for every property below. -/
inductive JValue where
  | null
  | bool (b : Bool)
  | num (n : Int)
  | str (s : String)
  | arr (elems : List JValue)
  | obj (fields : List (String × JValue))

/-- A Python `dict` with `str` keys, modelled as an insertion-ordered
association list: iteration order is insertion order, and assigning to
an existing key keeps its original position. -/
abbrev Dict (α : Type) : Type := List (String × α)

/-- Lookup (`d.get(k)` / `d[k]`). -/
def Dict.get? {α : Type} : Dict α → String → Option α
  | [], _ => none
  | (k', v) :: rest, k => if k' = k then some v else Dict.get? rest k

/-- Key-membership test (`k in d`). -/
def Dict.hasKey {α : Type} (d : Dict α) (k : String) : Bool :=
  (Dict.get? d k).isSome

/-- Assignment `d[k] = v`: overwrite in place when the key exists
(keeping its position), otherwise append at the end. -/
def Dict.set {α : Type} : Dict α → String → α → Dict α
  | [], k, v => [(k, v)]
  | (k', v') :: rest, k, v =>
    if k' = k then (k, v) :: rest else (k', v') :: Dict.set rest k v

/-- Iteration order of keys (`list(d.keys())`). -/
def Dict.keys {α : Type} (d : Dict α) : List String :=
  d.map Prod.fst

/-- Iteration order of values (`list(d.values())`). -/
def Dict.values {α : Type} (d : Dict α) : List α :=
  d.map Prod.snd

/-- Python `str.isspace` characters relevant to `str.strip()`. -/
def pyIsSpace (c : Char) : Bool :=
  c == ' ' || c == '\t' || c == '\n' || c == '\r' || c == '\x0b' || c == '\x0c'

/-- Python `str.strip()`. -/
def pyStrip (s : String) : String :=
  ⟨((s.data.dropWhile pyIsSpace).reverse.dropWhile pyIsSpace).reverse⟩

/-- Python `str.upper()` (ASCII part, which covers HTTP method names). -/
def pyUpper (s : String) : String :=
  ⟨s.data.map Char.toUpper⟩

/-- Replace the first occurrence of `pat` in `s` by `rep`
(cells of a path template contain each placeholder once). -/
def replaceOnceAux (s pat rep : List Char) : List Char :=
  match s with
  | [] => []
  | c :: rest =>
    if pat.isPrefixOf (c :: rest) then rep ++ (c :: rest).drop pat.length
    else c :: replaceOnceAux rest pat rep

/-- String version of `replaceOnceAux`. -/
def replaceOnce (s pat rep : String) : String :=
  ⟨replaceOnceAux s.data pat.data rep.data⟩

/-- Normalized data types (`DataType` in `canonical_models.py`). -/
inductive DataType where
  | STRING
  | NUMBER
  | BOOLEAN
  | OBJECT
  | ARRAY
  | NULL
  deriving DecidableEq

/-- The string value of each `DataType` enum member. -/
def DataType.value : DataType → String
  | .STRING => "string"
  | .NUMBER => "number"
  | .BOOLEAN => "boolean"
  | .OBJECT => "object"
  | .ARRAY => "array"
  | .NULL => "null"

/-- Normalized parameter locations (`ParameterLocation` in `canonical_models.py`). -/
inductive ParameterLocation where
  | QUERY
  | PATH
  | HEADER
  | BODY
  | COOKIE
  deriving DecidableEq

/-- The string value of each `ParameterLocation` enum member. -/
def ParameterLocation.value : ParameterLocation → String
  | .QUERY => "query"
  | .PATH => "path"
  | .HEADER => "header"
  | .BODY => "body"
  | .COOKIE => "cookie"

/-- Simplified JSON schema for request/response bodies
(`CanonicalSchema` in `canonical_models.py`). -/
inductive CanonicalSchema where
  | mk (type : DataType)
       (properties : Option (List (String × CanonicalSchema)))
       (items : Option CanonicalSchema)
       (required : Option (List String))
       (description : Option String)
       («example» : Option JValue)

/-- The `type` field of a `CanonicalSchema`. -/
def CanonicalSchema.type : CanonicalSchema → DataType
  | .mk t _ _ _ _ _ => t

/-- The `properties` field of a `CanonicalSchema`. -/
def CanonicalSchema.properties : CanonicalSchema → Option (List (String × CanonicalSchema))
  | .mk _ p _ _ _ _ => p

/-- The `items` field of a `CanonicalSchema`. -/
def CanonicalSchema.items : CanonicalSchema → Option CanonicalSchema
  | .mk _ _ i _ _ _ => i

/-- A single API parameter (`CanonicalParameter` in `canonical_models.py`). -/
structure CanonicalParameter where
  name : String
  location : ParameterLocation
  type : DataType
  required : Bool
  description : Option String
  default : Option JValue
  «example» : Option JValue

/-- The `validate_name` field validator of `CanonicalParameter`:
reject the empty string, otherwise return the stripped name. -/
def CanonicalParameter.validate_name (v : String) : Except String String :=
  if v = "" then Except.error "Parameter name cannot be empty"
  else Except.ok (pyStrip v)

/-- Pydantic construction of a `CanonicalParameter`: run the `name`
validator; no other field is validated. -/
def mkCanonicalParameter (name : String) (location : ParameterLocation)
    (type : DataType) (required : Bool) (description : Option String)
    (default : Option JValue) (ex : Option JValue) :
    Except String CanonicalParameter :=
  match CanonicalParameter.validate_name name with
  | Except.error e => Except.error e
  | Except.ok n =>
    Except.ok { name := n, location := location, type := type,
                required := required, description := description,
                default := default, «example» := ex }

/-- Canonical representation of a REST endpoint
(`CanonicalEndpoint` in `canonical_models.py`). -/
structure CanonicalEndpoint where
  name : String
  method : String
  path : String
  description : Option String
  summary : Option String
  parameters : List CanonicalParameter
  body_schema : Option CanonicalSchema
  response_schema : Option CanonicalSchema
  tags : List String
  security : List (Dict JValue)
  deprecated : Bool

/-- The `validate_method` field validator of `CanonicalEndpoint`:
reject the empty string, otherwise uppercase and strip. -/
def CanonicalEndpoint.validate_method (v : String) : Except String String :=
  if v = "" then Except.error "HTTP method cannot be empty"
  else Except.ok (pyStrip (pyUpper v))

/-- The `validate_path` field validator of `CanonicalEndpoint`:
reject the empty string, strip, and prepend a slash when missing. -/
def CanonicalEndpoint.validate_path (v : String) : Except String String :=
  if v = "" then Except.error "Path cannot be empty"
  else
    let v' := pyStrip v
    if "/".data.isPrefixOf v'.data then Except.ok v' else Except.ok ("/" ++ v')

/-- The `validate_name` field validator of `CanonicalEndpoint`:
reject the empty string, otherwise strip. -/
def CanonicalEndpoint.validate_name (v : String) : Except String String :=
  if v = "" then Except.error "Endpoint name cannot be empty"
  else Except.ok (pyStrip v)

/-- Pydantic construction of a `CanonicalEndpoint`: run the three
field validators (`method`, `path`, `name`); the parameter list and
every other field are taken as given, with no cross-field check. -/
def mkCanonicalEndpoint (name method path : String)
    (description summary : Option String)
    (parameters : List CanonicalParameter)
    (body_schema response_schema : Option CanonicalSchema)
    (tags : List String) (security : List (Dict JValue))
    (deprecated : Bool) : Except String CanonicalEndpoint :=
  match CanonicalEndpoint.validate_name name with
  | Except.error e => Except.error e
  | Except.ok n =>
    match CanonicalEndpoint.validate_method method with
    | Except.error e => Except.error e
    | Except.ok m =>
      match CanonicalEndpoint.validate_path path with
      | Except.error e => Except.error e
      | Except.ok p =>
        Except.ok { name := n, method := m, path := p,
                    description := description, summary := summary,
                    parameters := parameters, body_schema := body_schema,
                    response_schema := response_schema, tags := tags,
                    security := security, deprecated := deprecated }

/-- The per-location parameter-name uniqueness property of an
endpoint: no two parameters share both name and location
(a decidable proposition). -/
def paramsUniquePerLocation (e : CanonicalEndpoint) : Prop :=
  (e.parameters.map (fun p => (p.name, p.location.value))).Nodup

instance (e : CanonicalEndpoint) : Decidable (paramsUniquePerLocation e) := by
  unfold paramsUniquePerLocation
  infer_instance

/-- Modelled from the spec: an MCP tool descriptor.  The defining
module `tool_generator.py` is not in the source tree; per the spec a
tool entry carries `name`, `description`, `inputSchema` and
`metadata` (at minimum the bound HTTP method and path). -/
structure MCPTool where
  name : String
  description : String
  inputSchema : JValue
  metadata : Dict JValue

/-- Registry for managing MCP tools (`ToolRegistry` in
`tool_registry.py`): a name plus the `_tools` dict, keyed by tool
name in insertion order. -/
structure ToolRegistry where
  name : Option String
  tools : Dict MCPTool

/-- A fresh registry (`ToolRegistry(name)`). -/
def ToolRegistry.init (name : Option String) : ToolRegistry :=
  { name := name, tools := [] }

/-- Python exceptions raised by registry operations. -/
inductive RegError where
  | valueError (msg : String)
  | keyError (msg : String)

/-- Embedding of `ToolRegistry.add_tool`: raise `ValueError` when a tool with the
same name already exists, otherwise store the tool under its name.
The duplicate check happens before any mutation.  (The message text
of the Python `ValueError` mentions `update_tool()`; it is abbreviated
here without the quoted tool name.) -/
def ToolRegistry.add_tool (r : ToolRegistry) (tool : MCPTool) :
    Except RegError ToolRegistry :=
  if Dict.hasKey r.tools tool.name then
    Except.error (RegError.valueError
      ("Tool " ++ tool.name ++ " already exists in registry. Use update_tool() to modify existing tools."))
  else
    Except.ok { r with tools := Dict.set r.tools tool.name tool }

/-- Mutation view of `add_tool`: in Python the `raise` happens before
the assignment, so on error the registry object is unchanged.  Returns
the post-state together with the raised exception, if any. -/
def ToolRegistry.add_tool_run (r : ToolRegistry) (tool : MCPTool) :
    ToolRegistry × Option RegError :=
  match r.add_tool tool with
  | Except.ok r' => (r', none)
  | Except.error e => (r, some e)

/-- Embedding of `ToolRegistry.add_tools`: add the tools one by one; the first
duplicate name raises, leaving the previously added tools in place. -/
def ToolRegistry.add_tools (r : ToolRegistry) :
    List MCPTool → Except RegError ToolRegistry
  | [] => Except.ok r
  | t :: rest =>
    match r.add_tool t with
    | Except.ok r' => r'.add_tools rest
    | Except.error e => Except.error e

/-- Embedding of `ToolRegistry.get_tool`: `self._tools.get(name)`. -/
def ToolRegistry.get_tool (r : ToolRegistry) (name : String) : Option MCPTool :=
  Dict.get? r.tools name

/-- Embedding of `ToolRegistry.get_all_tools`: `list(self._tools.values())`. -/
def ToolRegistry.get_all_tools (r : ToolRegistry) : List MCPTool :=
  Dict.values r.tools

/-- Embedding of `ToolRegistry.get_tool_names`: `list(self._tools.keys())`. -/
def ToolRegistry.get_tool_names (r : ToolRegistry) : List String :=
  Dict.keys r.tools

/-- Embedding of `ToolRegistry.count`: `len(self._tools)`. -/
def ToolRegistry.count (r : ToolRegistry) : Nat :=
  r.tools.length

/-- One registry-population call: either a single `add_tool` or an
`add_tools` with a list. -/
inductive AddOp where
  | one (t : MCPTool)
  | many (ts : List MCPTool)

/-- The tools a population call tries to add, in call order. -/
def AddOp.toolsOf : AddOp → List MCPTool
  | .one t => [t]
  | .many ts => ts

/-- Run one population call against a registry. -/
def ToolRegistry.applyOp (r : ToolRegistry) : AddOp → Except RegError ToolRegistry
  | .one t => r.add_tool t
  | .many ts => r.add_tools ts

/-- Run a sequence of `add_tool` / `add_tools` calls in order. -/
def ToolRegistry.applyOps (r : ToolRegistry) : List AddOp → Except RegError ToolRegistry
  | [] => Except.ok r
  | op :: rest =>
    match r.applyOp op with
    | Except.ok r' => r'.applyOps rest
    | Except.error e => Except.error e

/-- The JSON-Schema property produced for one parameter by
`SchemaConverter._parameter_to_property`: a `type`, plus
`description` / `default` / `example` entries when present. -/
structure PropertySchema where
  type : String
  description : Option String
  default : Option JValue
  «example» : Option JValue

/-- Embedding of `SchemaConverter._parameter_to_property`.  With pydantic
`use_enum_values`, both branches of the Python `isinstance` test
produce the enum value string of the parameter type.  A `description`
entry is added only when the description is truthy (non-empty), and
`default` / `example` entries only when not `None`. -/
def SchemaConverter.parameter_to_property (p : CanonicalParameter) : PropertySchema :=
  { type := p.type.value
    description :=
      match p.description with
      | some d => if d = "" then none else some d
      | none => none
    default := p.default
    «example» := p.«example» }

/-- The JSON Schema produced by `SchemaConverter._parameters_flat_schema`:
`type` is `"object"`, `properties` is a dict keyed by parameter name,
and `required` is present exactly when at least one parameter is
required (a Python `if required:` truthiness test). -/
structure FlatSchema where
  type : String
  properties : Dict PropertySchema
  required : Option (List String)

/-- State of the loop in `_parameters_flat_schema`: the `properties`
dict and the `required` list built so far. -/
def flatStep (acc : Dict PropertySchema × List String) (p : CanonicalParameter) :
    Dict PropertySchema × List String :=
  (Dict.set acc.1 p.name (SchemaConverter.parameter_to_property p),
   if p.required then acc.2 ++ [p.name] else acc.2)

/-- Embedding of `SchemaConverter._parameters_flat_schema`. -/
def SchemaConverter.parameters_flat_schema (ps : List CanonicalParameter) : FlatSchema :=
  let acc := ps.foldl flatStep ([], [])
  { type := "object"
    properties := acc.1
    required := if acc.2 = [] then none else some acc.2 }

/-- The JSON Schema produced by `SchemaConverter._parameters_grouped_schema`:
`properties` maps location names to the flat schema of that location
group, and `required` lists the locations containing a required
parameter. -/
structure GroupedSchema where
  type : String
  properties : Dict FlatSchema
  required : Option (List String)

/-- Embedding of `SchemaConverter._parameters_grouped_schema`: group parameters by
location in the fixed order path, query, header, body (cookie
parameters are dropped), skip empty groups, and mark a location
required when its flat schema has a `required` entry. -/
def SchemaConverter.parameters_grouped_schema (ps : List CanonicalParameter) : GroupedSchema :=
  let groups := [ParameterLocation.PATH, ParameterLocation.QUERY,
                 ParameterLocation.HEADER, ParameterLocation.BODY]
  let acc := groups.foldl
    (fun (acc : Dict FlatSchema × List String) loc =>
      let group := ps.filter (fun p => p.location = loc)
      if group.isEmpty then acc
      else
        let s := SchemaConverter.parameters_flat_schema group
        (Dict.set acc.1 loc.value s,
         if s.required.isSome then acc.2 ++ [loc.value] else acc.2))
    ([], [])
  { type := "object"
    properties := acc.1
    required := if acc.2 = [] then none else some acc.2 }

/-- The result of `SchemaConverter.parameters_to_json_schema`: a flat
or a grouped schema, depending on `group_by_location`. -/
inductive ParamsSchema where
  | flat (s : FlatSchema)
  | grouped (s : GroupedSchema)

/-- Embedding of `SchemaConverter.parameters_to_json_schema`. -/
def SchemaConverter.parameters_to_json_schema (ps : List CanonicalParameter)
    (group_by_location : Bool) : ParamsSchema :=
  if group_by_location then ParamsSchema.grouped (SchemaConverter.parameters_grouped_schema ps)
  else ParamsSchema.flat (SchemaConverter.parameters_flat_schema ps)

/-- Modelled from the spec: a concrete outgoing request
(`RequestSpec`, section 3); the `adapter.runtime` module is not in the
source tree. -/
structure RequestSpec where
  method : String
  url : String
  headers : Dict String
  query : Dict String
  body : Option JValue

/-- Bad or missing arguments, raised before any network call. -/
structure ValidationError where
  msg : String

/-- Scalar rendering of a value for path substitution and query maps. -/
def JValue.render : JValue → String
  | .null => "null"
  | .bool true => "true"
  | .bool false => "false"
  | .num n => toString n
  | .str s => s
  | .arr _ => "<array>"
  | .obj _ => "<object>"

/-- The value used for a parameter: the argument when supplied, else
the declared default, else nothing (the parameter is omitted). -/
def resolveParam (args : Dict JValue) (p : CanonicalParameter) : Option JValue :=
  match Dict.get? args p.name with
  | some v => some v
  | none => p.default

/-- Structural body-schema check per the spec wording
"object/array/primitive type match": the JSON kind of the assembled
body must match the declared schema type. -/
def structMatch : CanonicalSchema → JValue → Bool
  | CanonicalSchema.mk t _ _ _ _ _, v =>
    match t, v with
    | DataType.OBJECT, JValue.obj _ => true
    | DataType.ARRAY, JValue.arr _ => true
    | DataType.STRING, JValue.str _ => true
    | DataType.NUMBER, JValue.num _ => true
    | DataType.BOOLEAN, JValue.bool _ => true
    | DataType.NULL, JValue.null => true
    | _, _ => false

/-- Modelled from the spec: `RequestBuilder.build` (section 4.2); the
`adapter.runtime` module is not in the source tree.  A required path
parameter missing from `args` is a `ValidationError` raised before
any other work; arguments not matching any declared parameter are
rejected (fail-closed); remaining parameters are routed by location;
missing optional parameters use declared defaults, otherwise are
omitted; a declared body schema is validated structurally.  No I/O is
performed. -/
def build (e : CanonicalEndpoint) (args : Dict JValue) :
    Except ValidationError RequestSpec :=
  match e.parameters.find? (fun p =>
      p.location == ParameterLocation.PATH && p.required
        && !(Dict.hasKey args p.name)) with
  | some p => Except.error ⟨"Missing required path parameter: " ++ p.name⟩
  | none =>
    match args.find? (fun kv => !(e.parameters.any (fun p => p.name == kv.1))) with
    | some kv => Except.error ⟨"Unknown argument: " ++ kv.1⟩
    | none =>
      let url := e.parameters.foldl (fun acc p =>
        if p.location == ParameterLocation.PATH then
          match resolveParam args p with
          | some v => replaceOnce acc ("\x7b" ++ p.name ++ "\x7d") (JValue.render v)
          | none => acc
        else acc) e.path
      let query := e.parameters.foldl (fun acc p =>
        if p.location == ParameterLocation.QUERY then
          match resolveParam args p with
          | some v => Dict.set acc p.name (JValue.render v)
          | none => acc
        else acc) ([] : Dict String)
      let headers := e.parameters.foldl (fun acc p =>
        if p.location == ParameterLocation.HEADER then
          match resolveParam args p with
          | some v => Dict.set acc p.name (JValue.render v)
          | none => acc
        else acc) ([] : Dict String)
      let bodyFields := e.parameters.foldl (fun acc p =>
        if p.location == ParameterLocation.BODY then
          match resolveParam args p with
          | some v => Dict.set acc p.name v
          | none => acc
        else acc) ([] : Dict JValue)
      let body := if bodyFields.isEmpty then none else some (JValue.obj bodyFields)
      let req : RequestSpec :=
        { method := e.method, url := url, headers := headers,
          query := query, body := body }
      match e.body_schema, body with
      | some s, some b =>
        if structMatch s b then Except.ok req
        else Except.error ⟨"Request body does not match the declared body schema"⟩
      | _, _ => Except.ok req

/-- Modelled from the spec: the raw result of one transport send —
either an HTTP response or a transport-level failure (timeout,
connection reset, DNS failure). -/
inductive TransportResult where
  | response (status : Nat) (headers : Dict String)
             (contentType : Option String) (body : String)
  | failure (description : String)

/-- Outcome classification (section 4.3): transport failure and HTTP
429/5xx are retryable. -/
def TransportResult.isRetryable : TransportResult → Bool
  | .failure _ => true
  | .response s _ _ _ => s == 429 || decide (500 ≤ s)

/-- Outcome classification (section 4.3): 2xx is terminal success. -/
def TransportResult.isSuccess2xx : TransportResult → Bool
  | .failure _ => false
  | .response s _ _ _ => decide (200 ≤ s) && decide (s < 300)

/-- Substring test used for the content-type JSON check. -/
def containsSubAux (s pat : List Char) : Bool :=
  match s with
  | [] => pat.isEmpty
  | c :: rest => pat.isPrefixOf (c :: rest) || containsSubAux rest pat

/-- Whether a content-type header indicates JSON. -/
def contentTypeIsJson : Option String → Bool
  | none => false
  | some ct => containsSubAux ct.data "json".data

/-- Modelled from the spec: extraction of a human-readable message
from the common error-envelope shapes (an object with an `error` or a
`message` entry), used when the status is at least 400. -/
def extractErrorMessage (data : JValue) (status : Nat) : String :=
  match data with
  | JValue.obj fields =>
    (match Dict.get? fields "error" with
     | some v => JValue.render v
     | none =>
       match Dict.get? fields "message" with
       | some v => JValue.render v
       | none => "HTTP error " ++ toString status)
  | _ => "HTTP error " ++ toString status

/-- Modelled from the spec: the normalized response (section 4.4) —
status, parsed body or raw text, headers, error text, and the parse
warning flag. -/
structure NormalizedResponse where
  status : Nat
  data : JValue
  headers : Dict String
  error : Option String
  parseWarning : Bool

/-- Modelled from the spec: `ResponseNormalizer.normalize` (section
4.4); the `adapter.runtime` module is not in the source tree.  It is a
total function — every path produces a value and no exception
escapes.  JSON parsing (a library call in the code) is passed in as
the `parse` function; a parse failure falls back to the raw text with
a warning flag.  On transport failure (no response at all) the result
has status 0, null data and the failure description as the error. -/
def normalize (parse : String → Option JValue) :
    TransportResult → NormalizedResponse
  | TransportResult.failure desc =>
    { status := 0, data := JValue.null, headers := [],
      error := some desc, parseWarning := false }
  | TransportResult.response s hs ct body =>
    let pd : JValue × Bool :=
      if contentTypeIsJson ct then
        match parse body with
        | some v => (v, false)
        | none => (JValue.str body, true)
      else (JValue.str body, false)
    { status := s, data := pd.1, headers := hs,
      error := if decide (400 ≤ s) then some (extractErrorMessage pd.1 s) else none,
      parseWarning := pd.2 }

/-- Modelled from the spec: the retry policy.  Only the attempt
ceiling matters for the verified properties; backoff delays and
jitter are real-time behaviour and are not modelled. -/
structure RetryPolicy where
  max_retries : Nat

/-- Modelled from the spec: the outcome of one executed call (section
3).  Elapsed wall-clock time is real-time behaviour and is not
modelled. -/
structure ExecutionOutcome where
  success : Bool
  response : NormalizedResponse
  attempts : Nat
  endpoint_name : String

/-- The retry loop: `transport i` is the raw result of attempt `i`
(attempts are numbered from 0) and `retriesLeft` is the number of
additional attempts still allowed after the current one.  Returns the
last raw result and the total number of attempts performed. -/
def runAttempts (transport : Nat → TransportResult) :
    Nat → Nat → TransportResult × Nat
  | i, 0 => (transport i, i + 1)
  | i, (r + 1) =>
    if (transport i).isRetryable then runAttempts transport (i + 1) r
    else (transport i, i + 1)

/-- Modelled from the spec: `Executor.execute` (section 4.3); the
`adapter.runtime` module is not in the source tree.  Build the request,
apply auth, then send via the transport with up to `max_retries`
additional attempts after the first.  Returns the outcome (or the
`ValidationError` from building, in which case no transport call is
made) together with the number of transport calls performed. -/
def execute (parse : String → Option JValue) (auth : RequestSpec → RequestSpec)
    (transport : RequestSpec → Nat → TransportResult)
    (e : CanonicalEndpoint) (args : Dict JValue) (policy : RetryPolicy) :
    Except ValidationError ExecutionOutcome × Nat :=
  match build e args with
  | Except.error ve => (Except.error ve, 0)
  | Except.ok req =>
    let signed := auth req
    let ra := runAttempts (transport signed) 0 policy.max_retries
    (Except.ok { success := ra.1.isSuccess2xx, response := normalize parse ra.1,
                 attempts := ra.2, endpoint_name := e.name }, ra.2)

/-- Pair each list element with its submission index, starting at `i`,
applying `f` (the independent worker computation). -/
def withIndexFrom {α β : Type} (f : α → β) : Nat → List α → List (Nat × β)
  | _, [] => []
  | i, x :: xs => (i, f x) :: withIndexFrom f (i + 1) xs

/-- Modelled from the spec: `Executor.executeBatch` (section 4.3); the
`adapter.runtime` module is not in the source tree.  Every pair is
executed independently by a worker (`exec1`); workers complete in the
order given by `completionOrder` (a permutation of the submission
indices), results are collected in completion order and then
re-ordered to match submission order before returning. -/
def executeBatch (exec1 : CanonicalEndpoint × Dict JValue → ExecutionOutcome)
    (pairs : List (CanonicalEndpoint × Dict JValue))
    (completionOrder : List Nat) : List ExecutionOutcome :=
  let indexed := withIndexFrom exec1 0 pairs
  let completed := completionOrder.filterMap
    (fun i => indexed.find? (fun p => p.1 == i))
  (List.range pairs.length).filterMap
    (fun i => (completed.find? (fun p => p.1 == i)).map Prod.snd)

/-- Protocol error codes of the dispatch layer. -/
inductive ProtocolErrorCode where
  | toolNotFound
  | methodNotFound
  | invalidParams
  | internalError
  deriving DecidableEq

/-- The protocol-level result of a `tools/call`: a success payload or
an error marked with a code — always a value, never a crash. -/
inductive ToolCallOutcome where
  | ok (payload : JValue)
  | err (code : ProtocolErrorCode) (msg : String)

/-- Modelled from the spec: `ToolDispatcher.callTool` (section 4.5);
the `adapter.server` module is not in the source tree.  Look the name
up in the registry; an unknown name is a `ToolNotFound` protocol
error (not a crash).  Validation and execution of a found tool are
abstracted as `invoke`. -/
def callTool (invoke : MCPTool → Dict JValue → ToolCallOutcome)
    (r : ToolRegistry) (name : String) (args : Dict JValue) : ToolCallOutcome :=
  match r.get_tool name with
  | none => ToolCallOutcome.err ProtocolErrorCode.toolNotFound ("Tool not found: " ++ name)
  | some t => invoke t args

/-- Supported documentation formats (`APIFormat` in `detector.py`). -/
inductive APIFormat where
  | OPENAPI
  | HTML
  | UNKNOWN
  deriving DecidableEq

/-- The string value of each `APIFormat` enum member. -/
def APIFormat.value : APIFormat → String
  | .OPENAPI => "openapi"
  | .HTML => "html"
  | .UNKNOWN => "unknown"

/-- Data produced by a loader: a parsed structured dict (OpenAPI) or
clean text (HTML). -/
inductive LoadedData where
  | dictData (d : JValue)
  | textData (s : String)

/-- An exception escaping a loader: a `LoaderError` subclass, or any
other unexpected exception. -/
inductive LoadExc where
  | loaderError (msg : String)
  | otherExc (msg : String)

/-- Result of the ingestion pipeline (`IngestionResult` in
`ingestion_pipeline.py`). -/
structure IngestionResult where
  format : APIFormat
  loaded_data : Option LoadedData
  source : String
  success : Bool
  error : Option String
  metadata : Option (Dict JValue)

/-- Embedding of `IngestionPipeline._get_loader`: the loader registry maps OPENAPI
and HTML to their loader classes; other formats have none.  The load
methods themselves (library-heavy YAML/HTML parsing) are passed in as
functions; the paired string is the loader class name recorded in the
result metadata. -/
def loaderFor (loadOpenapi loadHtml : String → Except LoadExc LoadedData) :
    APIFormat → Option ((String → Except LoadExc LoadedData) × String)
  | APIFormat.OPENAPI => some (loadOpenapi, "OpenAPILoader")
  | APIFormat.HTML => some (loadHtml, "HTMLLoader")
  | APIFormat.UNKNOWN => none

/-- Steps 2 and 3 of `IngestionPipeline.ingest`: run the selected
loader (when one exists) and wrap the outcome — including a raised
`LoaderError` or any other exception — into an `IngestionResult`. -/
def ingestFinish (df : APIFormat) (source : String) (md2 : Dict JValue)
    (loader : Option ((String → Except LoadExc LoadedData) × String))
    (content : String) : IngestionResult :=
  match loader with
  | none =>
    { format := df, loaded_data := none, source := source, success := false,
      error := some ("No loader available for format: " ++ df.value),
      metadata := some md2 }
  | some (load, loaderName) =>
    match load content with
    | Except.ok d =>
      { format := df, loaded_data := some d, source := source, success := true,
        error := none,
        metadata := some (Dict.set md2 "loader_type" (JValue.str loaderName)) }
    | Except.error (LoadExc.loaderError m) =>
      { format := df, loaded_data := none, source := source, success := false,
        error := some ("Loader error: " ++ m), metadata := some md2 }
    | Except.error (LoadExc.otherExc m) =>
      { format := df, loaded_data := none, source := source, success := false,
        error := some ("Unexpected error: " ++ m), metadata := some md2 }

/-- Embedding of `IngestionPipeline.ingest`: detect the format (or take the hint),
select a loader, load, and wrap everything — including loader
exceptions — into an `IngestionResult`.  `detect` is
`FormatDetector.detect` (which catches its own parse errors and is
total), called with the source as the filename hint. -/
def ingest (loadOpenapi loadHtml : String → Except LoadExc LoadedData)
    (detect : String → Option String → APIFormat)
    (source content : String) (format_hint : Option APIFormat) : IngestionResult :=
  let md0 : Dict JValue := [("source", JValue.str source)]
  let df :=
    match format_hint with
    | some f => f
    | none => detect content (some source)
  let md1 := Dict.set md0 "format_hint" (JValue.bool format_hint.isSome)
  let md2 := Dict.set md1 "detected_format" (JValue.str df.value)
  ingestFinish df source md2 (loaderFor loadOpenapi loadHtml df) content

/-- A concrete parameter used in concrete test instances below. -/
def dupParam : CanonicalParameter :=
  { name := "x", location := ParameterLocation.QUERY, type := DataType.STRING,
    required := false, description := none, default := none, «example» := none }

/-- The endpoint value produced by constructing an endpoint with
`dupParam` listed twice: two parameters share name and location. -/
def dupEndpoint : CanonicalEndpoint :=
  { name := "dup_ep", method := "GET", path := "/things",
    description := none, summary := none, parameters := [dupParam, dupParam],
    body_schema := none, response_schema := none, tags := [],
    security := [], deprecated := false }

/-- A concrete required path parameter. -/
def idParam : CanonicalParameter :=
  { name := "id", location := ParameterLocation.PATH, type := DataType.STRING,
    required := true, description := none, default := none, «example» := none }

/-- A concrete endpoint with one required path parameter. -/
def getUserEndpoint : CanonicalEndpoint :=
  { name := "get_user", method := "GET", path := "/users/\x7bid\x7d",
    description := none, summary := none, parameters := [idParam],
    body_schema := none, response_schema := none, tags := [],
    security := [], deprecated := false }

/-- A concrete parameterless endpoint. -/
def pingEndpoint : CanonicalEndpoint :=
  { name := "ping", method := "GET", path := "/ping",
    description := none, summary := none, parameters := [],
    body_schema := none, response_schema := none, tags := [],
    security := [], deprecated := false }

/-- A second concrete parameterless endpoint. -/
def pongEndpoint : CanonicalEndpoint :=
  { name := "pong", method := "GET", path := "/pong",
    description := none, summary := none, parameters := [],
    body_schema := none, response_schema := none, tags := [],
    security := [], deprecated := false }

/-- A trivial JSON parser stand-in for concrete instances. -/
def parseNoneC : String → Option JValue := fun _ => none

/-- The identity auth strategy (the `None` variant of section 4.1). -/
def authIdC : RequestSpec → RequestSpec := fun req => req

/-- A fake transport that always answers HTTP 500. -/
def transport500C : RequestSpec → Nat → TransportResult :=
  fun _ _ => TransportResult.response 500 [] none ""

/-- A concrete worker function for batch instances: a fixed successful
outcome tagged with the endpoint name. -/
def execOkC : CanonicalEndpoint × Dict JValue → ExecutionOutcome :=
  fun pr =>
    { success := true
      response := { status := 200, data := JValue.null, headers := [],
                    error := none, parseWarning := false }
      attempts := 1
      endpoint_name := pr.1.name }

/-- A concrete MCP tool. -/
def toolA : MCPTool :=
  { name := "tool_a", description := "first tool", inputSchema := JValue.null,
    metadata := [] }

/-- A second concrete MCP tool. -/
def toolB : MCPTool :=
  { name := "tool_b", description := "second tool", inputSchema := JValue.null,
    metadata := [] }

/-- A concrete registry holding `toolA`. -/
def regWithA : ToolRegistry :=
  { name := none, tools := [("tool_a", toolA)] }

/-- A concrete tool invocation stand-in. -/
def invokeOkC : MCPTool → Dict JValue → ToolCallOutcome :=
  fun _ _ => ToolCallOutcome.ok JValue.null

/-- A concrete loader that always raises a `LoaderError`. -/
def loadFailC : String → Except LoadExc LoadedData :=
  fun _ => Except.error (LoadExc.loaderError "bad spec")

/-- A concrete detector that always reports `UNKNOWN`. -/
def detectUnknownC : String → Option String → APIFormat :=
  fun _ _ => APIFormat.UNKNOWN

/- ===================== Helper lemmas ===================== -/

theorem Dict.get?_eq_none_iff {α : Type} (d : Dict α) (k : String) :
    Dict.get? d k = none ↔ k ∉ Dict.keys d := by
  induction d with
  | nil => simp [Dict.get?, Dict.keys]
  | cons kv rest ih =>
    obtain ⟨k', v⟩ := kv
    by_cases h : k' = k
    · subst h
      simp [Dict.get?, Dict.keys]
    · simp [Dict.get?, h, Dict.keys, ih, Ne.symm h]

theorem Dict.hasKey_eq_false_iff {α : Type} (d : Dict α) (k : String) :
    Dict.hasKey d k = false ↔ k ∉ Dict.keys d := by
  rw [← Dict.get?_eq_none_iff]
  cases h : Dict.get? d k <;> simp [Dict.hasKey, h]

theorem Dict.keys_nil {α : Type} : Dict.keys ([] : Dict α) = [] := rfl

theorem Dict.keys_cons {α : Type} (k : String) (v : α) (d : Dict α) :
    Dict.keys ((k, v) :: d) = k :: Dict.keys d := rfl

theorem Dict.set_of_not_mem {α : Type} (d : Dict α) (k : String) (v : α)
    (h : k ∉ Dict.keys d) : Dict.set d k v = d ++ [(k, v)] := by
  induction d with
  | nil => simp [Dict.set]
  | cons kv rest ih =>
    obtain ⟨k', v'⟩ := kv
    simp only [Dict.keys, List.map_cons, List.mem_cons] at h
    push_neg at h
    simp [Dict.set, Ne.symm h.1, ih (by simpa [Dict.keys] using h.2)]

theorem Dict.get?_set_self {α : Type} (d : Dict α) (k : String) (v : α) :
    Dict.get? (Dict.set d k v) k = some v := by
  induction d with
  | nil => simp [Dict.set, Dict.get?]
  | cons kv rest ih =>
    obtain ⟨k', v'⟩ := kv
    by_cases h : k' = k
    · subst h
      simp [Dict.set, Dict.get?]
    · simp [Dict.set, h, Dict.get?, ih]

theorem Dict.set_cons_self {α : Type} (k : String) (v' v : α) (rest : Dict α) :
    Dict.set ((k, v') :: rest) k v = (k, v) :: rest := by
  simp [Dict.set]

theorem Dict.set_cons_ne {α : Type} (k' k : String) (v' v : α) (rest : Dict α)
    (h : k' ≠ k) : Dict.set ((k', v') :: rest) k v = (k', v') :: Dict.set rest k v := by
  simp [Dict.set, h]

theorem Dict.mem_keys_set {α : Type} (d : Dict α) (k : String) (v : α) (n : String) :
    n ∈ Dict.keys (Dict.set d k v) ↔ n ∈ Dict.keys d ∨ n = k := by
  induction d with
  | nil => simp [Dict.set, Dict.keys_cons, Dict.keys_nil]
  | cons kv rest ih =>
    obtain ⟨k', v'⟩ := kv
    by_cases h : k' = k
    · subst h
      rw [Dict.set_cons_self]
      simp only [Dict.keys_cons, List.mem_cons]
      tauto
    · rw [Dict.set_cons_ne k' k v' v rest h]
      simp only [Dict.keys_cons, List.mem_cons, ih]
      tauto

theorem Dict.length_set_of_not_mem {α : Type} (d : Dict α) (k : String) (v : α)
    (h : k ∉ Dict.keys d) : (Dict.set d k v).length = d.length + 1 := by
  rw [Dict.set_of_not_mem d k v h]
  simp

theorem ingestFinish_failure_shape (df : APIFormat) (source : String)
    (md2 : Dict JValue)
    (loader : Option ((String → Except LoadExc LoadedData) × String))
    (content : String)
    (h : (ingestFinish df source md2 loader content).success = false) :
    (ingestFinish df source md2 loader content).error.isSome = true ∧
    (ingestFinish df source md2 loader content).loaded_data = none := by
  rcases loader with _ | ⟨load, lname⟩
  · exact ⟨rfl, rfl⟩
  · rw [ingestFinish] at h ⊢
    rcases hl : load content with exc | d
    · rcases exc with m | m <;> exact ⟨rfl, rfl⟩
    · rw [hl] at h
      exact Bool.noConfusion h

theorem Dict.keys_append {α : Type} (d1 d2 : Dict α) :
    Dict.keys (d1 ++ d2) = Dict.keys d1 ++ Dict.keys d2 :=
  List.map_append Prod.fst d1 d2

theorem flat_req (ps : List CanonicalParameter) (acc : Dict PropertySchema × List String) :
    (ps.foldl flatStep acc).2 =
      acc.2 ++ (ps.filter (fun p => p.required)).map (fun p => p.name) := by
  induction ps generalizing acc with
  | nil => simp
  | cons p rest ih =>
    rw [List.foldl_cons, ih]
    by_cases hr : p.required <;> simp [flatStep, hr]

theorem flat_keys_mem (ps : List CanonicalParameter)
    (acc : Dict PropertySchema × List String) (n : String) :
    n ∈ Dict.keys (ps.foldl flatStep acc).1 ↔
      n ∈ Dict.keys acc.1 ∨ n ∈ ps.map (fun p => p.name) := by
  induction ps generalizing acc with
  | nil => simp
  | cons p rest ih =>
    rw [List.foldl_cons, ih]
    have hm := Dict.mem_keys_set acc.1 p.name (SchemaConverter.parameter_to_property p) n
    simp only [flatStep, hm, List.map_cons, List.mem_cons]
    tauto

theorem add_tools_append (ts : List MCPTool) (r : ToolRegistry)
    (hn : (ts.map (fun t => t.name)).Nodup)
    (hd : ∀ t ∈ ts, t.name ∉ Dict.keys r.tools) :
    r.add_tools ts =
      Except.ok ⟨r.name, r.tools ++ ts.map (fun t => (t.name, t))⟩ := by
  induction ts generalizing r with
  | nil => simp [ToolRegistry.add_tools]
  | cons t rest ih =>
    have hfresh : t.name ∉ Dict.keys r.tools := hd t (List.mem_cons_self t rest)
    have hkey : Dict.hasKey r.tools t.name = false :=
      (Dict.hasKey_eq_false_iff _ _).mpr hfresh
    have hset := Dict.set_of_not_mem r.tools t.name t hfresh
    simp only [List.map_cons, List.nodup_cons] at hn
    rw [ToolRegistry.add_tools, ToolRegistry.add_tool, hkey]
    simp only [Bool.false_eq_true, if_false]
    rw [hset]
    rw [ih ⟨r.name, r.tools ++ [(t.name, t)]⟩ hn.2 ?_]
    · simp
    · intro t' ht'
      rw [Dict.keys_append]
      simp only [List.mem_append]
      push_neg
      refine ⟨hd t' (List.mem_cons_of_mem t ht'), ?_⟩
      have : t'.name ∈ rest.map (fun t => t.name) := List.mem_map_of_mem _ ht'
      intro hc
      simp only [Dict.keys_cons, Dict.keys_nil, List.mem_singleton] at hc
      exact hn.1 (hc ▸ this)

theorem applyOp_eq_add_tools (r : ToolRegistry) (op : AddOp) :
    r.applyOp op = r.add_tools op.toolsOf := by
  cases op with
  | one t =>
    rw [ToolRegistry.applyOp, AddOp.toolsOf, ToolRegistry.add_tools]
    cases r.add_tool t <;> simp [ToolRegistry.add_tools]
  | many ts => rfl

theorem applyOps_append (ops : List AddOp) (r : ToolRegistry)
    (hn : (((ops.map AddOp.toolsOf).flatten).map (fun t => t.name)).Nodup)
    (hd : ∀ t ∈ (ops.map AddOp.toolsOf).flatten, t.name ∉ Dict.keys r.tools) :
    r.applyOps ops =
      Except.ok ⟨r.name,
        r.tools ++ ((ops.map AddOp.toolsOf).flatten).map (fun t => (t.name, t))⟩ := by
  induction ops generalizing r with
  | nil => simp [ToolRegistry.applyOps]
  | cons op rest ih =>
    simp only [List.map_cons, List.flatten_cons, List.map_append] at hn hd ⊢
    rw [List.nodup_append] at hn
    obtain ⟨hn1, hn2, hdisj⟩ := hn
    rw [ToolRegistry.applyOps, applyOp_eq_add_tools,
      add_tools_append op.toolsOf r hn1
        (fun t ht => hd t (List.mem_append_left _ ht))]
    dsimp only
    rw [ih ⟨r.name, r.tools ++ (op.toolsOf).map (fun t => (t.name, t))⟩ hn2 ?_]
    · simp
    · intro t' ht'
      rw [Dict.keys_append]
      simp only [List.mem_append]
      push_neg
      refine ⟨hd t' (List.mem_append_right _ ht'), ?_⟩
      intro hc
      have hmem : t'.name ∈ (op.toolsOf).map (fun t => t.name) := by
        simpa [Dict.keys] using hc
      exact hdisj hmem (List.mem_map_of_mem _ ht')

theorem runAttempts_count_le (t : Nat → TransportResult) (r i : Nat) :
    (runAttempts t i r).2 ≤ i + r + 1 := by
  induction r generalizing i with
  | zero => simp [runAttempts]
  | succ r ih =>
    rw [runAttempts]
    by_cases hr : (t i).isRetryable
    · rw [if_pos hr]
      have := ih (i + 1)
      omega
    · rw [if_neg hr]
      simp only []
      omega

theorem runAttempts_all_retryable (t : Nat → TransportResult)
    (h : ∀ i, (t i).isRetryable = true) (r i : Nat) :
    runAttempts t i r = (t (i + r), i + r + 1) := by
  induction r generalizing i with
  | zero => simp [runAttempts]
  | succ r ih =>
    rw [runAttempts, if_pos (h i), ih (i + 1)]
    have harith : i + 1 + r = i + (r + 1) := by omega
    rw [harith]

theorem filterMap_congr_mem {α β : Type} (l : List α) (f g : α → Option β)
    (h : ∀ a ∈ l, f a = g a) : l.filterMap f = l.filterMap g := by
  induction l with
  | nil => rfl
  | cons x xs ih =>
    rw [List.filterMap_cons, List.filterMap_cons, h x (List.mem_cons_self x xs),
      ih (fun a ha => h a (List.mem_cons_of_mem x ha))]

theorem find?_keyed_filterMap {β : Type} (ord : List Nat) (F : Nat → Option β)
    (j : Nat) :
    ((ord.filterMap (fun i => (F i).map (fun o => (i, o)))).find?
        (fun p => p.1 == j)) =
      if j ∈ ord then (F j).map (fun o => (j, o)) else none := by
  induction ord with
  | nil => simp
  | cons i rest ih =>
    rcases hF : F i with _ | o
    · rw [List.filterMap_cons]
      rw [hF]
      simp only [Option.map_none']
      rw [ih]
      by_cases hj : j = i
      · subst hj
        rw [hF]
        by_cases hjr : j ∈ rest <;> simp [hjr, hF]
      · simp [List.mem_cons, hj]
    · rw [List.filterMap_cons, hF]
      simp only [Option.map_some']
      by_cases hij : i = j
      · subst hij
        simp [List.find?_cons, hF]
      · have hbe : ((i, o).1 == j) = false := by simp [hij]
        rw [List.find?_cons_of_neg _ (by simp [hij]), ih]
        have : (j ∈ i :: rest) ↔ (j ∈ rest) := by
          constructor
          · intro hc
            rcases List.mem_cons.mp hc with h1 | h2
            · exact absurd h1.symm hij
            · exact h2
          · exact fun hc => List.mem_cons_of_mem i hc
        by_cases hjr : j ∈ rest
        · rw [if_pos hjr, if_pos (this.mpr hjr)]
        · rw [if_neg hjr, if_neg (fun hc => hjr (this.mp hc))]

theorem withIndexFrom_find? {α β : Type} (f : α → β) (l : List α) (j : Nat) :
    ∀ start, (withIndexFrom f start l).find? (fun p => p.1 == j) =
      if start ≤ j then (l.get? (j - start)).map (fun x => (j, f x)) else none := by
  induction l with
  | nil =>
    intro start
    simp [withIndexFrom]
  | cons x xs ih =>
    intro start
    rw [withIndexFrom]
    by_cases hsj : start = j
    · subst hsj
      rw [List.find?_cons_of_pos _ (by simp)]
      simp
    · rw [List.find?_cons_of_neg _ (by simp [hsj]), ih (start + 1)]
      by_cases hle : start + 1 ≤ j
      · rw [if_pos hle, if_pos (by omega)]
        have harith : j - start = (j - (start + 1)) + 1 := by omega
        rw [harith, List.get?_cons_succ]
      · rw [if_neg hle, if_neg (by omega)]

theorem range_filterMap_get {α β : Type} (f : α → β) (l : List α) :
    (List.range l.length).filterMap (fun j => (l.get? j).map f) = l.map f := by
  induction l with
  | nil => simp
  | cons x xs ih =>
    rw [List.length_cons, List.range_succ_eq_map, List.filterMap_cons]
    simp only [List.get?_cons_zero, Option.map_some']
    rw [List.filterMap_map]
    have hcomp : ((fun j => ((x :: xs).get? j).map f) ∘ Nat.succ) =
        (fun j => (xs.get? j).map f) := by
      funext j
      simp [List.get?_cons_succ]
    rw [hcomp, ih, List.map_cons]

/- ===================== Claim theorems ===================== -/

/-- C2: `normalize` is a total Lean function on every transport
result (the embedding of "never raises — every path produces a
value"), and on a transport failure carrying no response at all the
produced response has status 0, null data, and the failure
description as its error text. -/
theorem normalize_transport_failure (parse : String → Option JValue) (desc : String) :
    normalize parse (TransportResult.failure desc) =
      { status := 0, data := JValue.null, headers := [], error := some desc,
        parseWarning := false } := rfl

/-- C6: looking up a name that is not registered returns `none` from
`ToolRegistry.get_tool` (no exception), and a `tools/call` with that
name yields a `ToolNotFound` protocol error value rather than a
crash. -/
theorem get_tool_unknown_safe (r : ToolRegistry) (name : String)
    (args : Dict JValue) (invoke : MCPTool → Dict JValue → ToolCallOutcome)
    (h : name ∉ Dict.keys r.tools) :
    r.get_tool name = none ∧
      callTool invoke r name args =
        ToolCallOutcome.err ProtocolErrorCode.toolNotFound ("Tool not found: " ++ name) := by
  have hg : r.get_tool name = none := (Dict.get?_eq_none_iff r.tools name).mpr h
  refine ⟨hg, ?_⟩
  rw [callTool, hg]

/-- Witness for C6 at a concrete empty registry and unknown name. -/
theorem get_tool_unknown_safe_witness :
    ToolRegistry.get_tool (ToolRegistry.init none) "nonexistent" = none ∧
      callTool invokeOkC (ToolRegistry.init none) "nonexistent" [] =
        ToolCallOutcome.err ProtocolErrorCode.toolNotFound
          ("Tool not found: " ++ "nonexistent") :=
  get_tool_unknown_safe (ToolRegistry.init none) "nonexistent" [] invokeOkC (by decide)

/-- C8: `add_tool` is atomic on error — when the tool name is already
registered it raises `ValueError` and leaves the registry unchanged;
when the name is fresh, no exception is raised, `get_tool` then finds
exactly the added tool, and `count` grows by one. -/
theorem add_tool_atomic (r : ToolRegistry) (t : MCPTool) :
    (Dict.hasKey r.tools t.name = true →
      r.add_tool_run t =
        (r, some (RegError.valueError ("Tool " ++ t.name ++
          " already exists in registry. Use update_tool() to modify existing tools.")))) ∧
    (Dict.hasKey r.tools t.name = false →
      (r.add_tool_run t).2 = none ∧
      (r.add_tool_run t).1.get_tool t.name = some t ∧
      (r.add_tool_run t).1.count = r.count + 1) := by
  constructor
  · intro h
    simp [ToolRegistry.add_tool_run, ToolRegistry.add_tool, h]
  · intro h
    have hnot : t.name ∉ Dict.keys r.tools := (Dict.hasKey_eq_false_iff _ _).mp h
    simp [ToolRegistry.add_tool_run, ToolRegistry.add_tool, h, ToolRegistry.get_tool,
      Dict.get?_set_self, ToolRegistry.count, Dict.length_set_of_not_mem _ _ _ hnot]

/-- Witness for C8: both branches at concrete registries and tools. -/
theorem add_tool_atomic_witness :
    (ToolRegistry.add_tool_run regWithA toolA =
      (regWithA, some (RegError.valueError ("Tool " ++ toolA.name ++
        " already exists in registry. Use update_tool() to modify existing tools.")))) ∧
    ((ToolRegistry.add_tool_run (ToolRegistry.init none) toolB).2 = none ∧
     (ToolRegistry.add_tool_run (ToolRegistry.init none) toolB).1.get_tool toolB.name =
       some toolB ∧
     (ToolRegistry.add_tool_run (ToolRegistry.init none) toolB).1.count =
       (ToolRegistry.init none).count + 1) :=
  ⟨(add_tool_atomic regWithA toolA).1 (by decide),
   (add_tool_atomic (ToolRegistry.init none) toolB).2 (by decide)⟩

/-- C5 counterexample: an endpoint whose parameter list contains the
same (name, location) parameter twice passes every construction
validator of `CanonicalEndpoint`, so a constructible endpoint need
not have per-location-unique parameter names. -/
theorem canonicalEndpoint_dup_params_constructible :
    mkCanonicalEndpoint "dup_ep" "GET" "/things" none none [dupParam, dupParam]
        none none [] [] false = Except.ok dupEndpoint ∧
      ¬ paramsUniquePerLocation dupEndpoint :=
  ⟨rfl, by decide⟩

/-- C5 amended: `CanonicalEndpoint` construction validates only that
name, method and path are non-empty (normalizing them) and accepts
the parameter list exactly as given — in particular without enforcing
per-location parameter-name uniqueness. -/
theorem mkCanonicalEndpoint_parameters_unchecked
    (name method path : String) (description summary : Option String)
    (params : List CanonicalParameter)
    (body_schema response_schema : Option CanonicalSchema)
    (tags : List String) (security : List (Dict JValue)) (deprecated : Bool)
    (hn : name ≠ "") (hm : method ≠ "") (hp : path ≠ "") :
    ∃ e, mkCanonicalEndpoint name method path description summary params
        body_schema response_schema tags security deprecated = Except.ok e ∧
      e.parameters = params := by
  unfold mkCanonicalEndpoint CanonicalEndpoint.validate_name
    CanonicalEndpoint.validate_method CanonicalEndpoint.validate_path
  rw [if_neg hn, if_neg hm, if_neg hp]
  by_cases hsw : "/".data.isPrefixOf (pyStrip path).data <;> simp [hsw]

/-- Witness for C5 amended, at the duplicate-parameter input of the
counterexample. -/
theorem mkCanonicalEndpoint_parameters_unchecked_witness :
    ∃ e, mkCanonicalEndpoint "dup_ep" "GET" "/things" none none
        [dupParam, dupParam] none none [] [] false = Except.ok e ∧
      e.parameters = [dupParam, dupParam] :=
  mkCanonicalEndpoint_parameters_unchecked "dup_ep" "GET" "/things" none none
    [dupParam, dupParam] none none [] [] false
    (by decide) (by decide) (by decide)

/-- C10: `ingest` is total at its public boundary — it is a total
Lean function of the source, content and optional hint (for every
behaviour of the detector and the two loaders, exceptions included),
and whenever the returned result has `success = false` its error
field is a non-null message and its `loaded_data` is `None`. -/
theorem ingest_failure_shape (lo lh : String → Except LoadExc LoadedData)
    (detect : String → Option String → APIFormat) (source content : String)
    (hint : Option APIFormat)
    (h : (ingest lo lh detect source content hint).success = false) :
    (ingest lo lh detect source content hint).error.isSome = true ∧
    (ingest lo lh detect source content hint).loaded_data = none := by
  unfold ingest at h ⊢
  exact ingestFinish_failure_shape _ _ _ _ _ h

/-- C9: `parameters_to_json_schema` with `group_by_location = False`
returns a flat object schema whose property keys are exactly the
parameter names, and whose `required` entry lists exactly the names
of the required parameters in input order — the entry being absent
when no parameter is required. -/
theorem parameters_to_json_schema_flat (ps : List CanonicalParameter) :
    ∃ s, SchemaConverter.parameters_to_json_schema ps false = ParamsSchema.flat s ∧
      s.type = "object" ∧
      (∀ n, n ∈ Dict.keys s.properties ↔ n ∈ ps.map (fun p => p.name)) ∧
      s.required =
        (if (ps.filter (fun p => p.required)).map (fun p => p.name) = []
         then none
         else some ((ps.filter (fun p => p.required)).map (fun p => p.name))) := by
  refine ⟨SchemaConverter.parameters_flat_schema ps, ?_, rfl, ?_, ?_⟩
  · simp [SchemaConverter.parameters_to_json_schema]
  · intro n
    have h := flat_keys_mem ps ([], []) n
    simpa [SchemaConverter.parameters_flat_schema, Dict.keys_nil] using h
  · have hreq := flat_req ps ([], [])
    simp [SchemaConverter.parameters_flat_schema, hreq]

/-- C7: starting from a fresh registry, any sequence of `add_tool` /
`add_tools` calls with pairwise-distinct tool names succeeds, and
`get_all_tools` / `get_tool_names` return the tools and names in
exactly the order in which they were added. -/
theorem registry_insertion_order (rname : Option String) (ops : List AddOp)
    (h : (((ops.map AddOp.toolsOf).flatten).map (fun t => t.name)).Nodup) :
    ∃ r, (ToolRegistry.init rname).applyOps ops = Except.ok r ∧
      r.get_all_tools = (ops.map AddOp.toolsOf).flatten ∧
      r.get_tool_names = ((ops.map AddOp.toolsOf).flatten).map (fun t => t.name) := by
  have happ := applyOps_append ops (ToolRegistry.init rname) h
    (by simp [ToolRegistry.init, Dict.keys_nil])
  have msnd : ∀ (L : List MCPTool),
      List.map Prod.snd (List.map (fun t => (t.name, t)) L) = L := by
    intro L
    induction L with
    | nil => rfl
    | cons t rest ih => simp [ih]
  have mfst : ∀ (L : List MCPTool),
      List.map Prod.fst (List.map (fun t => (t.name, t)) L) =
        List.map (fun t => t.name) L := by
    intro L
    induction L with
    | nil => rfl
    | cons t rest ih => simp [ih]
  refine ⟨_, happ, ?_, ?_⟩
  · simp only [ToolRegistry.get_all_tools, Dict.values, ToolRegistry.init,
      List.nil_append]
    exact msnd _
  · simp only [ToolRegistry.get_tool_names, Dict.keys, ToolRegistry.init,
      List.nil_append]
    exact mfst _

/-- Witness for C7: one `add_tool` call followed by one `add_tools`
call, with distinct names. -/
theorem registry_insertion_order_witness :
    ∃ r, (ToolRegistry.init none).applyOps
        [AddOp.one toolA, AddOp.many [toolB]] = Except.ok r ∧
      r.get_all_tools = [toolA, toolB] ∧
      r.get_tool_names = [toolA.name, toolB.name] :=
  registry_insertion_order none [AddOp.one toolA, AddOp.many [toolB]] (by decide)

/-- Witness for C10 at a concrete failing ingestion (hinted format
with no registered loader). -/
theorem ingest_failure_shape_witness :
    (ingest loadFailC loadFailC detectUnknownC "spec.bin" "garbage"
        (some APIFormat.UNKNOWN)).error.isSome = true ∧
    (ingest loadFailC loadFailC detectUnknownC "spec.bin" "garbage"
        (some APIFormat.UNKNOWN)).loaded_data = none :=
  ingest_failure_shape loadFailC loadFailC detectUnknownC "spec.bin" "garbage"
    (some APIFormat.UNKNOWN) rfl

/-- C1: for an endpoint declaring a required path parameter that is
absent from the argument map, `build` fails with a `ValidationError`,
and `execute` therefore fails with that `ValidationError` before any
other work, performing zero transport calls — for every auth
strategy, transport and retry policy. -/
theorem build_missing_required_path (e : CanonicalEndpoint) (args : Dict JValue)
    (p : CanonicalParameter) (hmem : p ∈ e.parameters)
    (hloc : p.location = ParameterLocation.PATH) (hreq : p.required = true)
    (hmiss : Dict.hasKey args p.name = false) :
    (∃ ve, build e args = Except.error ve) ∧
    (∀ parse auth transport policy,
      (∃ ve, (execute parse auth transport e args policy).1 = Except.error ve) ∧
      (execute parse auth transport e args policy).2 = 0) := by
  have hfind : (e.parameters.find? (fun p =>
      p.location == ParameterLocation.PATH && p.required
        && !(Dict.hasKey args p.name))).isSome := by
    rw [List.find?_isSome]
    exact ⟨p, hmem, by simp [hloc, hreq, hmiss]⟩
  obtain ⟨q, hq⟩ := Option.isSome_iff_exists.mp hfind
  have hb : build e args =
      Except.error ⟨"Missing required path parameter: " ++ q.name⟩ := by
    rw [build, hq]
  refine ⟨⟨_, hb⟩, ?_⟩
  intro parse auth transport policy
  rw [execute, hb]
  exact ⟨⟨_, rfl⟩, rfl⟩

/-- Witness for C1 at a concrete endpoint (`GET /users/\x7bid\x7d`
with required path parameter `id`) called with empty arguments. -/
theorem build_missing_required_path_witness :
    (∃ ve, build getUserEndpoint [] = Except.error ve) ∧
    (∃ ve, (execute parseNoneC authIdC transport500C getUserEndpoint []
        ⟨0⟩).1 = Except.error ve) ∧
    (execute parseNoneC authIdC transport500C getUserEndpoint [] ⟨0⟩).2 = 0 :=
  have h := build_missing_required_path getUserEndpoint [] idParam
    (List.mem_cons_self idParam []) rfl rfl rfl
  ⟨h.1, (h.2 parseNoneC authIdC transport500C ⟨0⟩).1,
    (h.2 parseNoneC authIdC transport500C ⟨0⟩).2⟩

/-- C3: `execute` makes at most `max_retries + 1` transport attempts
for every policy and transport; and against a transport that always
answers HTTP 500, `execute` with `max_retries = 2` returns a failed
outcome with exactly 3 attempts (initial plus two retries), never
more. -/
theorem execute_retry_bound (parse : String → Option JValue)
    (auth : RequestSpec → RequestSpec)
    (transport : RequestSpec → Nat → TransportResult)
    (e : CanonicalEndpoint) (args : Dict JValue) (n : Nat) :
    (execute parse auth transport e args ⟨n⟩).2 ≤ n + 1 ∧
    ((∀ req i, ∃ hs ct body,
        transport req i = TransportResult.response 500 hs ct body) →
      n = 2 → (build e args).isOk = true →
      ∃ o, execute parse auth transport e args ⟨n⟩ = (Except.ok o, 3) ∧
        o.success = false ∧ o.attempts = 3) := by
  constructor
  · rcases hb : build e args with ve | req
    · rw [execute, hb]
      exact Nat.zero_le _
    · rw [execute, hb]
      have := runAttempts_count_le (transport (auth req)) n 0
      simpa using this
  · intro h500 hn hbuild
    subst hn
    rcases hb : build e args with ve | req
    · rw [hb] at hbuild
      exact Bool.noConfusion hbuild
    · have hr : ∀ i, ((transport (auth req)) i).isRetryable = true := by
        intro i
        obtain ⟨hs, ct, b, heq⟩ := h500 (auth req) i
        rw [heq]
        rfl
      rw [execute, hb]
      dsimp only
      rw [runAttempts_all_retryable (transport (auth req)) hr 2 0]
      refine ⟨_, rfl, ?_, rfl⟩
      obtain ⟨hs, ct, b, heq⟩ := h500 (auth req) (0 + 2)
      show (transport (auth req) (0 + 2)).isSuccess2xx = false
      rw [heq]
      rfl

/-- Witness for C3 at a concrete parameterless endpoint against the
always-500 transport. -/
theorem execute_retry_bound_witness :
    ∃ o, execute parseNoneC authIdC transport500C pingEndpoint [] ⟨2⟩ =
        (Except.ok o, 3) ∧ o.success = false ∧ o.attempts = 3 :=
  (execute_retry_bound parseNoneC authIdC transport500C pingEndpoint [] 2).2
    (fun _ _ => ⟨[], none, "", rfl⟩) rfl rfl

/-- C4: `executeBatch` returns exactly one outcome per submitted
(endpoint, args) pair and in submission order, for every order in
which the independent workers complete (any permutation of the
submission indices). -/
theorem executeBatch_preserves_order
    (exec1 : CanonicalEndpoint × Dict JValue → ExecutionOutcome)
    (pairs : List (CanonicalEndpoint × Dict JValue)) (ord : List Nat)
    (hperm : ord.Perm (List.range pairs.length)) :
    executeBatch exec1 pairs ord = pairs.map exec1 := by
  rw [executeBatch]
  have hfind : ∀ i : Nat,
      (withIndexFrom exec1 0 pairs).find? (fun p => p.1 == i) =
        ((pairs.get? i).map exec1).map (fun o => (i, o)) := by
    intro i
    rw [withIndexFrom_find? exec1 pairs i 0, if_pos (Nat.zero_le i)]
    simp [Option.map_map]
    rfl
  have hcompleted :
      ord.filterMap (fun i =>
          (withIndexFrom exec1 0 pairs).find? (fun p => p.1 == i)) =
        ord.filterMap (fun i =>
          (((pairs.get? i).map exec1)).map (fun o => (i, o))) :=
    filterMap_congr_mem ord _ _ (fun i _ => hfind i)
  rw [hcompleted]
  have hrange : ∀ j ∈ List.range pairs.length,
      ((ord.filterMap (fun i =>
          (((pairs.get? i).map exec1)).map (fun o => (i, o)))).find?
            (fun p => p.1 == j)).map Prod.snd =
        ((pairs.get? j).map exec1) := by
    intro j hj
    rw [find?_keyed_filterMap ord (fun i => (pairs.get? i).map exec1) j,
      if_pos (hperm.mem_iff.mpr hj)]
    rcases (pairs.get? j).map exec1 with _ | o <;> rfl
  rw [filterMap_congr_mem (List.range pairs.length) _ _ hrange]
  exact range_filterMap_get exec1 pairs

/-- Witness for C4: a two-element batch whose workers complete in
reversed order still yields outcomes in submission order. -/
theorem executeBatch_preserves_order_witness :
    executeBatch execOkC [(pingEndpoint, []), (pongEndpoint, [])] [1, 0] =
      List.map execOkC [(pingEndpoint, []), (pongEndpoint, [])] :=
  executeBatch_preserves_order execOkC [(pingEndpoint, []), (pongEndpoint, [])]
    [1, 0] (by decide)

end Adapter
